import Mathlib

/-!
Verification of the lazy pagination engine of the `upbankapi` package
(`upbankapi/models/pagination.py`, with the same logic repeated in
`upbankapi/list.py` and `upbankapi/PaginatedList.py`).

The engine is shallowly embedded: the collection state is a structure, the
transport collaborator is a function from the stored cursor to a response
(`Except` for raised errors), and the fetch loops are recursive functions
driven by a script, the list of successive transport responses.
-/

namespace UpBankApi

/-- `BASE_URL` from `upbankapi/const.py`. -/
def BASE_URL : String := "https://api.up.com.au/api/v1"

/-- Python truthiness of an `Optional[str]` value: `None` and `""` are falsy. -/
def truthyStr : Option String → Bool
  | none => false
  | some s => !(s == "")

/-- Python truthiness of the `_limit` field (declared `int`, but callers pass
`None` by default): `None` and `0` are falsy. -/
def truthyLimit : Option Int → Bool
  | none => false
  | some n => !(n == 0)

/-- One parsed page response: `data["data"]` (raw items) and
`data["links"]["next"]` (`None` or a URL string). -/
structure PageData (ρ : Type) where
  data : List ρ
  next : Option String
deriving Repr, DecidableEq

/-- The state of a `PaginatedList`: `_elements`, `_next_url`, `_limit`.
The element factory and client are modelled as the function `f` passed to the
operations below. -/
structure PaginatedList (α : Type) where
  elements : List α
  next_url : Option String
  limit : Option Int
deriving Repr, DecidableEq

/-- Python list indexing `xs[i]`: non-negative indices are positional,
negative indices wrap from the end, and `none` is an `IndexError`. -/
def pyIndex (xs : List α) (i : Int) : Option α :=
  if 0 ≤ i then xs.get? i.toNat
  else if 0 ≤ (xs.length : Int) + i then xs.get? ((xs.length : Int) + i).toNat
  else none

/-- Cursor update applied by `_handle_next` to `data["links"]["next"]`: if the
value is truthy the `BASE_URL` prefix is stripped (by character-count slice),
otherwise the raw value (possibly `""`) is kept. -/
def updatedNextUrl (o : Option String) : Option String :=
  if truthyStr o then o.map (fun s => s.drop BASE_URL.length) else o

/-- `PaginatedList.__init__`: seeds `_elements` from the first page (no
truncation), stores `_limit`, and sets `_next_url` from the first page's next
link only when that link is truthy. -/
def PaginatedList.init (f : ρ → α) (data : PageData ρ) (limit : Option Int) :
    PaginatedList α :=
  { elements := data.data.map f
    next_url :=
      if truthyStr data.next then data.next.map (fun s => s.drop BASE_URL.length)
      else none
    limit := limit }

/-- `PaginatedList.has_next` (a pure query on the state): false when
`_next_url` is falsy; else when `_limit` is truthy, `len(_elements) < _limit`;
else true. -/
def PaginatedList.has_next (p : PaginatedList α) : Bool :=
  if truthyStr p.next_url then
    match p.limit with
    | some n => if n ≠ 0 then decide ((p.elements.length : Int) < n) else true
    | none => true
  else false

/-- `PaginatedList._handle_next(data)`: updates `_next_url` from the response,
builds the new elements through the factory, and when `_limit` is truthy and
`diff = len(_elements) + len(new_elements) - _limit > 0` replaces the new
elements by the slice `new_elements[: diff - 1]`; appends and returns the
(possibly truncated) new elements. -/
def PaginatedList.handle_next (f : ρ → α) (p : PaginatedList α) (d : PageData ρ) :
    List α × PaginatedList α :=
  let nu : Option String := updatedNextUrl d.next
  let newElements : List α := d.data.map f
  let newElements : List α :=
    match p.limit with
    | some n =>
      if n ≠ 0 then
        let diff : Int := (p.elements.length : Int) + (newElements.length : Int) - n
        if 0 < diff then newElements.take (diff - 1).toNat else newElements
      else newElements
    | none => newElements
  (newElements, { p with elements := p.elements ++ newElements, next_url := nu })

/-- `PaginatedList.next()`: unconditionally calls `self._client.api(self._next_url)`
and feeds the result to `_handle_next`; a transport error propagates before any
state is touched. -/
def PaginatedList.next (api : Option String → Except ε (PageData ρ)) (f : ρ → α)
    (p : PaginatedList α) : Except ε (List α × PaginatedList α) :=
  match api p.next_url with
  | .error e => .error e
  | .ok d => .ok (p.handle_next f d)

/-- Equality on transport responses is decidable (needed so that concrete runs
of the engine can be checked by evaluation). -/
instance instDecEqExcept [DecidableEq ε] [DecidableEq α] : DecidableEq (Except ε α)
  | .error a, .error b =>
    if h : a = b then isTrue (congrArg Except.error h)
    else isFalse (fun hh => h (Except.error.inj hh))
  | .error _, .ok _ => isFalse (fun hh => Except.noConfusion hh)
  | .ok _, .error _ => isFalse (fun hh => Except.noConfusion hh)
  | .ok a, .ok b =>
    if h : a = b then isTrue (congrArg Except.ok h)
    else isFalse (fun hh => h (Except.ok.inj hh))

/-- Outcome of the `_fetch_to` loop run against a response script: normal exit,
a transport error carrying the state at the moment it was raised, or a script
too short for the loop (never the case for a real server, which always answers). -/
inductive FetchOut (ε ρ α : Type) where
  | ok (st : PaginatedList α) (rest : List (Except ε (PageData ρ)))
  | err (e : ε) (st : PaginatedList α) (rest : List (Except ε (PageData ρ)))
  | stuck (st : PaginatedList α)
deriving Repr, DecidableEq

/-- `PaginatedList._fetch_to(index)`: `while len(self._elements) <= index and
self.has_next: self.next()`, with each call to `next` consuming the next entry
of the response script. -/
def PaginatedList.fetch_to (f : ρ → α) (index : Int) :
    List (Except ε (PageData ρ)) → PaginatedList α → FetchOut ε ρ α
  | script, p =>
    if (p.elements.length : Int) ≤ index ∧ p.has_next = true then
      match script with
      | [] => .stuck p
      | .error e :: rest => .err e p rest
      | .ok d :: rest => fetch_to f index rest (p.handle_next f d).2
    else .ok p script

/-- Outcome of `__getitem__` with an integer index. -/
inductive GetOut (ε ρ α : Type) where
  | ok (a : α) (st : PaginatedList α) (rest : List (Except ε (PageData ρ)))
  | idxErr (st : PaginatedList α) (rest : List (Except ε (PageData ρ)))
  | transportErr (e : ε) (st : PaginatedList α) (rest : List (Except ε (PageData ρ)))
  | stuck (st : PaginatedList α)
deriving Repr, DecidableEq

/-- `PaginatedList.__getitem__(index)` for an integer index:
`self._fetch_to(index); return self._elements[index]` with Python indexing. -/
def PaginatedList.get (f : ρ → α) (index : Int)
    (script : List (Except ε (PageData ρ))) (p : PaginatedList α) : GetOut ε ρ α :=
  match PaginatedList.fetch_to f index script p with
  | .ok p2 rest =>
    match pyIndex p2.elements index with
    | some a => .ok a p2 rest
    | none => .idxErr p2 rest
  | .err e p2 rest => .transportErr e p2 rest
  | .stuck p2 => .stuck p2

/-- Outcome of running an iterator to completion: the yielded elements, the
final state and the unconsumed script (or a transport error / short script). -/
inductive IterOut (ε ρ α : Type) where
  | done (ys : List α) (st : PaginatedList α) (rest : List (Except ε (PageData ρ)))
  | err (ys : List α) (e : ε) (st : PaginatedList α)
      (rest : List (Except ε (PageData ρ)))
  | stuck (ys : List α) (st : PaginatedList α)
deriving Repr, DecidableEq

/-- The `while self.has_next: new_elements = self.next(); yield from new_elements`
half of `PaginatedList.__iter__`. -/
def iterLoop (f : ρ → α) :
    List (Except ε (PageData ρ)) → PaginatedList α → IterOut ε ρ α
  | script, p =>
    if p.has_next = true then
      match script with
      | [] => .stuck [] p
      | .error e :: rest => .err [] e p rest
      | .ok d :: rest =>
        match iterLoop f rest (p.handle_next f d).2 with
        | .done ys st r => .done ((p.handle_next f d).1 ++ ys) st r
        | .err ys e st r => .err ((p.handle_next f d).1 ++ ys) e st r
        | .stuck ys st => .stuck ((p.handle_next f d).1 ++ ys) st
    else .done [] p script

/-- `PaginatedList.__iter__`: yield the elements already in memory, then run
the fetch loop. -/
def PaginatedList.iterate (f : ρ → α) (script : List (Except ε (PageData ρ)))
    (p : PaginatedList α) : IterOut ε ρ α :=
  match iterLoop f script p with
  | .done ys st r => .done (p.elements ++ ys) st r
  | .err ys e st r => .err (p.elements ++ ys) e st r
  | .stuck ys st => .stuck (p.elements ++ ys) st

/-- The three arguments captured by `_Slice.__init__` from the Python `slice`
object, before the `or`-defaulting. -/
structure SliceArgs where
  start : Option Int
  stop : Option Int
  step : Option Int
deriving Repr, DecidableEq

/-- `_slice.start or 0`: falsy (`None` or `0`) becomes `0`. -/
def SliceArgs.startVal (s : SliceArgs) : Int :=
  match s.start with
  | some v => if v = 0 then 0 else v
  | none => 0

/-- `_slice.step or 1`: falsy (`None` or `0`) becomes `1`. -/
def SliceArgs.stepVal (s : SliceArgs) : Int :=
  match s.step with
  | some v => if v = 0 then 1 else v
  | none => 1

/-- The loop guard `self.__end and index < self.__end`: falsy when `__end` is
`None` or `0`, else the comparison. -/
def endGuard (stop : Option Int) (index : Int) : Bool :=
  match stop with
  | none => false
  | some v => if v = 0 then false else decide (index < v)

/-- Outcome of running `_Slice.__iter__` to completion. -/
inductive SliceOut (ε ρ α : Type) where
  | done (ys : List α) (st : PaginatedList α) (rest : List (Except ε (PageData ρ)))
  | idxErr (ys : List α) (st : PaginatedList α)
      (rest : List (Except ε (PageData ρ)))
  | transportErr (ys : List α) (e : ε) (st : PaginatedList α)
      (rest : List (Except ε (PageData ρ)))
  | stuck (ys : List α) (st : PaginatedList α)
deriving Repr, DecidableEq

/-- The loop of `_Slice.__iter__`: while the end guard holds, if the index is
materialized or `has_next`, yield `self.__list[index]` (which may fetch and may
raise) and advance by `step`; otherwise return. `fuel` bounds the number of
yields so the recursion is total; it is consumed only when an element is
yielded, so guard-driven exits need no fuel. -/
def sliceLoop (f : ρ → α) (stop : Option Int) (step : Int) :
    Nat → Int → List (Except ε (PageData ρ)) → PaginatedList α → SliceOut ε ρ α
  | fuel, index, script, p =>
    if endGuard stop index = true then
      if (p.elements.length : Int) > index ∨ p.has_next = true then
        match PaginatedList.get f index script p with
        | .ok a p2 rest =>
          match fuel with
          | 0 => .stuck [a] p2
          | fuel2 + 1 =>
            match sliceLoop f stop step fuel2 (index + step) rest p2 with
            | .done ys st r => .done (a :: ys) st r
            | .idxErr ys st r => .idxErr (a :: ys) st r
            | .transportErr ys e st r => .transportErr (a :: ys) e st r
            | .stuck ys st => .stuck (a :: ys) st
        | .idxErr p2 rest => .idxErr [] p2 rest
        | .transportErr e p2 rest => .transportErr [] e p2 rest
        | .stuck p2 => .stuck [] p2
      else .done [] p script
    else .done [] p script

/-- `PaginatedList.__getitem__` with a slice: build the `_Slice` helper and
iterate it. -/
def PaginatedList.sliceIter (f : ρ → α) (s : SliceArgs) (fuel : Nat)
    (script : List (Except ε (PageData ρ))) (p : PaginatedList α) :
    SliceOut ε ρ α :=
  sliceLoop f s.stop s.stepVal fuel s.startVal script p

end UpBankApi

namespace UpBankApi

/-! ### Shared concrete states and helper lemmas -/

/-- E2E scenario C before the second fetch: 20 elements held, `limit = 25`,
cursor set. -/
def scenC_before : PaginatedList Nat :=
  { elements := List.range 20
    next_url := some "/transactions?page=2"
    limit := some 25 }

/-- E2E scenario C second page: 20 more elements and a further next link. -/
def scenC_page : PageData Nat :=
  { data := List.range 20
    next := some "https://api.up.com.au/api/v1/transactions?page=3" }

/-- A fully materialized collection with no further pages. -/
def tail_state : PaginatedList Nat :=
  { elements := [10, 20], next_url := none, limit := none }

/-- A collection whose cursor is falsy only because `limit = 0` is falsy. -/
def limit0_state : PaginatedList Nat :=
  { elements := [], next_url := some "/a", limit := some 0 }

/-- A collection that has reached its limit while the cursor is still set. -/
def limitReached_state : PaginatedList Nat :=
  { elements := [1], next_url := some "/x", limit := some 1 }

/-- A transport that answers every request with a two-element page. -/
def twoItemApi : Option String → Except Unit (PageData Nat) :=
  fun _ => .ok { data := [2, 3], next := none }

/-- The state after a page fetch extends the previous elements by exactly the
returned elements. -/
theorem handle_next_elements {α ρ : Type} (f : ρ → α) (p : PaginatedList α)
    (d : PageData ρ) :
    (p.handle_next f d).2.elements = p.elements ++ (p.handle_next f d).1 := rfl

/-- A page fetch rewrites the cursor from the response's next link. -/
theorem handle_next_next_url {α ρ : Type} (f : ρ → α) (p : PaginatedList α)
    (d : PageData ρ) :
    (p.handle_next f d).2.next_url = updatedNextUrl d.next := rfl

/-! ### C1 -/

/-- C1: the claim says a fetched page is truncated so that the element count
after the append is exactly `min(limit, count_before + fetched)`; with 20
elements held, `limit = 25` and a fetched page of 20 it demands 5 kept and
`size() == 25`. The code computes `new_elements[: diff - 1]`, keeping
`diff - 1 = 14` elements: the count becomes 34, not `min 25 40 = 25`, and 14
elements are returned instead of 5. This evaluates the code at that input. -/
theorem c1_truncation_off :
    (scenC_before.handle_next id scenC_page).2.elements.length = 34
    ∧ (scenC_before.handle_next id scenC_page).1.length = 14
    ∧ min 25 (scenC_before.elements.length + scenC_page.data.length) = 25 := by
  decide

/-! ### C2 -/

/-- C2: the claim says the element count never exceeds the limit — the
constructor truncates the seed page defensively and no fetch overshoots. The
code does neither: seeding 3 elements with `limit = 1` stores all 3, and the
scenario-C fetch leaves 34 elements with `limit = 25`. -/
theorem c2_limit_invariant_violated :
    (PaginatedList.init (ρ := Nat) id { data := [1, 2, 3], next := none } (some 1)).elements.length = 3
    ∧ (scenC_before.handle_next id scenC_page).2.elements.length = 34 := by
  decide

/-! ### C3 -/

/-- C3: the claim says a slice with an unspecified stop bound iterates the
whole tail of the sequence. On a fully materialized two-element collection the
open-ended slice from index 0 yields nothing at all (the loop guard
`self.__end and index < self.__end` is falsy for `__end = None`), although the
tail from 0 is the nonempty `[10, 20]`. -/
theorem c3_open_slice_counterexample :
    PaginatedList.sliceIter id { start := some 0, stop := none, step := none } 5
      ([] : List (Except Unit (PageData Nat))) tail_state
      = .done [] tail_state []
    ∧ tail_state.elements ≠ [] := by
  decide

/-- C3 amended: a slice whose stop bound is `None` (or `0`, equally falsy)
terminates immediately and yields no elements, whatever the start, step, state
and pending pages are; it does not iterate the tail. -/
theorem c3_open_slice_empty {α ρ ε : Type} (f : ρ → α) (s : SliceArgs)
    (fuel : Nat) (script : List (Except ε (PageData ρ))) (p : PaginatedList α)
    (h : s.stop = none ∨ s.stop = some 0) :
    PaginatedList.sliceIter f s fuel script p = .done [] p script := by
  unfold PaginatedList.sliceIter sliceLoop
  rcases h with h | h <;> simp [h, endGuard]

/-- C3 amended, instantiated: an open-ended slice over a three-element
collection with arbitrary start and step yields nothing. -/
theorem c3_open_slice_empty_witness :
    PaginatedList.sliceIter id { start := some 1, stop := none, step := some 2 } 3
      ([] : List (Except Unit (PageData Nat)))
      { elements := [1, 2, 3], next_url := none, limit := none }
      = .done [] { elements := [1, 2, 3], next_url := none, limit := none } [] :=
  c3_open_slice_empty id _ 3 [] _ (Or.inl rfl)

/-! ### C4 -/

/-- The `has_next` predicate exactly as the claim words it: the cursor is set
AND (the limit is unset OR the element count is strictly below it). -/
def hasNextSpec (p : PaginatedList α) : Bool :=
  p.next_url.isSome
    && (p.limit.isNone || decide ((p.elements.length : Int) < p.limit.getD 0))

/-- C4: the claim's predicate disagrees with the code when `limit = 0`: the
code treats the falsy limit as absent and reports `has_next = true`, while
"limit set and count not below it" makes the claim's predicate false. -/
theorem c4_has_next_counterexample :
    PaginatedList.has_next limit0_state = true
    ∧ hasNextSpec limit0_state = false := by
  decide

/-- C4 amended: `has_next` is a pure function of the state that is true iff the
cursor is truthy (set and non-empty) AND (the limit is falsy — unset or zero —
OR the element count is strictly below the limit); and, as the claim's scenario
B states, a collection with `limit = 1` holding one element reports
`has_next = false` regardless of its cursor. -/
theorem c4_has_next_characterization {α : Type} (p : PaginatedList α) :
    (p.has_next = true
      ↔ (truthyStr p.next_url = true
          ∧ (truthyLimit p.limit = false
              ∨ (p.elements.length : Int) < p.limit.getD 0)))
    ∧ (p.limit = some 1 → p.elements.length = 1 → p.has_next = false) := by
  constructor
  · unfold PaginatedList.has_next truthyLimit
    rcases p.limit with _ | n
    · simp
    · rcases eq_or_ne n 0 with hn | hn <;> split <;> simp_all
  · intro h1 h2
    unfold PaginatedList.has_next
    rw [h1, h2]
    split <;> simp

/-- C4 amended, instantiated at scenario B: one element held, `limit = 1`, a
live cursor — `has_next` is false. -/
theorem c4_has_next_characterization_witness :
    PaginatedList.has_next
      { elements := [5], next_url := some "/a", limit := some 1 } = false :=
  (c4_has_next_characterization _).2 rfl rfl

/-! ### C5 -/

/-- C5: the claim says that calling `next` while `has_next` is false is a
no-op: empty result, elements and cursor unchanged. On a collection that has
reached its limit with a live cursor, `next` against a transport answering a
two-element page returns a nonempty list, appends past the limit, and rewrites
the cursor. -/
theorem c5_next_not_noop_counterexample :
    PaginatedList.has_next limitReached_state = false
    ∧ PaginatedList.next twoItemApi id limitReached_state
      = .ok ([2], { elements := [1, 2], next_url := none, limit := some 1 }) := by
  decide

/-- C5 amended: `next` never consults `has_next`; whenever the transport
answers, the response is processed exactly as a normal fetch — in particular
when `has_next` is false the cursor is still overwritten from the response and
the (mis)truncated page is appended and returned. -/
theorem c5_next_unguarded {α ρ ε : Type}
    (api : Option String → Except ε (PageData ρ)) (f : ρ → α)
    (p : PaginatedList α) (d : PageData ρ) (hapi : api p.next_url = .ok d) :
    PaginatedList.next api f p = .ok (p.handle_next f d)
    ∧ (p.handle_next f d).2.next_url = updatedNextUrl d.next := by
  refine ⟨?_, rfl⟩
  unfold PaginatedList.next
  rw [hapi]

/-- C5 amended, instantiated: the limit-reached state still fetches and is
rewritten by the response. -/
theorem c5_next_unguarded_witness :
    PaginatedList.next twoItemApi id
      { elements := [7], next_url := some "/y", limit := some 1 }
      = .ok (PaginatedList.handle_next id
          { elements := [7], next_url := some "/y", limit := some 1 }
          { data := [2, 3], next := none }) :=
  (c5_next_unguarded twoItemApi id _ _ rfl).1

/-! ### C6 -/

/-- C6 (confirmed): a transport error propagates unchanged, and the collection
state is exactly what it was before the failed fetch. For `next` the error
surfaces verbatim; for the `_fetch_to` loop and the iterator loop an error
raised by the pending fetch surfaces carrying precisely the pre-fetch state,
so a fetch either fully succeeds and appends or fails and appends nothing. -/
theorem c6_error_atomicity {α ρ ε : Type} :
    (∀ (api : Option String → Except ε (PageData ρ)) (f : ρ → α)
        (p : PaginatedList α) (e : ε),
        api p.next_url = .error e → PaginatedList.next api f p = .error e)
    ∧ (∀ (f : ρ → α) (index : Int) (p : PaginatedList α) (e : ε)
        (rest : List (Except ε (PageData ρ))),
        (p.elements.length : Int) ≤ index → p.has_next = true →
        PaginatedList.fetch_to f index (.error e :: rest) p = .err e p rest)
    ∧ (∀ (f : ρ → α) (p : PaginatedList α) (e : ε)
        (rest : List (Except ε (PageData ρ))),
        p.has_next = true →
        iterLoop f (.error e :: rest) p = .err [] e p rest) := by
  refine ⟨?_, ?_, ?_⟩
  · intro api f p e hapi
    unfold PaginatedList.next
    rw [hapi]
  · intro f index p e rest h1 h2
    unfold PaginatedList.fetch_to
    rw [if_pos ⟨h1, h2⟩]
  · intro f p e rest h
    unfold iterLoop
    rw [if_pos h]

/-- C6 instantiated: a `401`-style error from the transport surfaces from
`next` untouched, and the mid-loop error from `_fetch_to` carries the pre-fetch
state verbatim. -/
theorem c6_error_atomicity_witness :
    PaginatedList.next (fun _ => (.error 401 : Except Nat (PageData Nat))) id
      { elements := [1], next_url := some "/x", limit := none } = .error 401
    ∧ PaginatedList.fetch_to id 5 [.error 401]
      { elements := [1], next_url := some "/x", limit := none }
      = .err 401 { elements := [1], next_url := some "/x", limit := none } [] :=
  ⟨c6_error_atomicity.1 _ id _ 401 rfl,
   c6_error_atomicity.2.1 id 5 _ 401 [] (by decide) (by decide)⟩

/-! ### C7 -/

/-- C7: the claim says a negative index signals out-of-range and never wraps.
On a two-element collection, `get(-1)` silently returns the last element. -/
theorem c7_negative_index_counterexample :
    PaginatedList.get id (-1) ([] : List (Except Unit (PageData Nat))) tail_state
      = .ok 20 tail_state [] := by
  decide

/-- C7 amended: a negative index performs no fetch (the loop condition
`len(elements) <= index` is immediately false) and is then resolved by Python
list indexing on the stored elements: it wraps to the element counted from the
end when `-len(elements) ≤ i`, and raises `IndexError` only when
`i < -len(elements)`. -/
theorem c7_negative_index_wraps {α ρ ε : Type} (f : ρ → α) (i : Int)
    (hi : i < 0) (script : List (Except ε (PageData ρ))) (p : PaginatedList α) :
    PaginatedList.get f i script p
      = (match pyIndex p.elements i with
         | some a => GetOut.ok a p script
         | none => GetOut.idxErr p script) := by
  have hcond : ¬((p.elements.length : Int) ≤ i ∧ p.has_next = true) := by
    rintro ⟨h1, -⟩
    omega
  unfold PaginatedList.get PaginatedList.fetch_to
  rw [if_neg hcond]

/-- C7 amended, instantiated: `get(-2)` on a two-element collection wraps to
the first element without consuming any page. -/
theorem c7_negative_index_wraps_witness :
    PaginatedList.get id (-2) ([] : List (Except Unit (PageData Nat)))
      { elements := [10, 20], next_url := none, limit := none }
      = .ok 10 { elements := [10, 20], next_url := none, limit := none } [] := by
  rw [c7_negative_index_wraps id (-2) (by decide)]
  decide

/-! ### C8 -/

/-- Step shape of the iterator loop: with `has_next` false it exits at once,
yielding nothing and consuming nothing. -/
theorem iterLoop_of_not_has_next {α ρ ε : Type} (f : ρ → α)
    (script : List (Except ε (PageData ρ))) (p : PaginatedList α)
    (hn : p.has_next = false) :
    iterLoop f script p = .done [] p script := by
  unfold iterLoop
  rw [if_neg (by simp [hn])]

/-- Step shape of the iterator loop: with `has_next` true it consumes the next
response and prepends that page's (possibly truncated) elements. -/
theorem iterLoop_cons_ok {α ρ ε : Type} (f : ρ → α) (d : PageData ρ)
    (rest : List (Except ε (PageData ρ))) (p : PaginatedList α)
    (hn : p.has_next = true) :
    iterLoop f (.ok d :: rest) p
      = (match iterLoop f rest (p.handle_next f d).2 with
         | .done ys st r => IterOut.done ((p.handle_next f d).1 ++ ys) st r
         | .err ys e st r => IterOut.err ((p.handle_next f d).1 ++ ys) e st r
         | .stuck ys st => IterOut.stuck ((p.handle_next f d).1 ++ ys) st) := by
  conv_lhs => unfold iterLoop
  rw [if_pos hn]
  dsimp only
  rcases iterLoop f rest (p.handle_next f d).2 with ⟨ys, st, r⟩ | ⟨ys, e, st, r⟩ | ⟨ys, st⟩ <;> rfl

/-- When the iterator's fetch loop runs to completion, the final state has
`has_next = false` and holds the starting elements followed by everything the
loop yielded. -/
theorem iterLoop_done_shape {α ρ ε : Type} (f : ρ → α) :
    ∀ (script : List (Except ε (PageData ρ))) (p st : PaginatedList α)
      (ys : List α) (rest : List (Except ε (PageData ρ))),
      iterLoop f script p = .done ys st rest →
      st.has_next = false ∧ st.elements = p.elements ++ ys := by
  intro script
  induction script with
  | nil =>
    intro p st ys rest h
    by_cases hn : p.has_next = true
    · rw [show iterLoop f ([] : List (Except ε (PageData ρ))) p = .stuck [] p from by
        unfold iterLoop; rw [if_pos hn]] at h
      exact absurd h (by simp)
    · have hfalse : p.has_next = false := by simpa using hn
      rw [iterLoop_of_not_has_next f _ p hfalse] at h
      injection h with h1 h2 h3
      subst h2
      exact ⟨hfalse, by rw [← h1]; simp⟩
  | cons r restS ih =>
    intro p st ys rest h
    by_cases hn : p.has_next = true
    · cases r with
      | error e =>
        rw [show iterLoop f (.error e :: restS) p = .err [] e p restS from by
          unfold iterLoop; rw [if_pos hn]] at h
        exact absurd h (by simp)
      | ok d =>
        rw [iterLoop_cons_ok f d restS p hn] at h
        rcases hrec : iterLoop f restS (p.handle_next f d).2 with
          ⟨ys2, st2, r2⟩ | ⟨ys2, e2, st2, r2⟩ | ⟨ys2, st2⟩ <;> rw [hrec] at h
        · injection h with h1 h2 h3
          obtain ⟨hfalse, helem⟩ := ih (p.handle_next f d).2 st2 ys2 r2 hrec
          subst h2
          refine ⟨hfalse, ?_⟩
          rw [helem, handle_next_elements, List.append_assoc, h1]
        · exact absurd h (by simp)
        · exact absurd h (by simp)
    · have hfalse : p.has_next = false := by simpa using hn
      rw [iterLoop_of_not_has_next f _ p hfalse] at h
      injection h with h1 h2 h3
      subst h2
      exact ⟨hfalse, by rw [← h1]; simp⟩

/-- C8 (confirmed): if one full iteration completes (exhausting `has_next`),
then a second iteration started afterwards consumes no page at all — against
any response script it yields exactly the accumulated elements, which are
exactly what the first iteration yielded, in the same order, and leaves the
script untouched (zero transport calls). -/
theorem c8_second_iteration_no_fetch {α ρ ε : Type} (f : ρ → α)
    (script script2 : List (Except ε (PageData ρ))) (p st : PaginatedList α)
    (ys : List α) (rest : List (Except ε (PageData ρ)))
    (h : PaginatedList.iterate f script p = .done ys st rest) :
    PaginatedList.iterate f script2 st = .done ys st script2
    ∧ st.elements = ys := by
  have hloop : ∃ ys2, iterLoop f script p = .done ys2 st rest
      ∧ ys = p.elements ++ ys2 := by
    unfold PaginatedList.iterate at h
    rcases hrec : iterLoop f script p with
      ⟨ys2, st2, r2⟩ | ⟨ys2, e2, st2, r2⟩ | ⟨ys2, st2⟩ <;> rw [hrec] at h
    · injection h with h1 h2 h3
      subst h2; subst h3
      exact ⟨ys2, rfl, h1.symm⟩
    · exact absurd h (by simp)
    · exact absurd h (by simp)
  obtain ⟨ys2, hrec, hys⟩ := hloop
  obtain ⟨hfalse, helem⟩ := iterLoop_done_shape f script p st ys2 rest hrec
  have helem2 : st.elements = ys := by rw [helem, hys]
  refine ⟨?_, helem2⟩
  unfold PaginatedList.iterate
  rw [iterLoop_of_not_has_next f script2 st hfalse]
  dsimp only
  rw [List.append_nil, helem2]

/-- C8 instantiated: after an iteration that yielded `[1, 2]` and exhausted the
cursor, a second iteration against a fresh non-empty script yields `[1, 2]`
again and leaves that script untouched. -/
theorem c8_second_iteration_no_fetch_witness :
    PaginatedList.iterate id
      ([.ok { data := [7], next := some "u" }] : List (Except Unit (PageData Nat)))
      { elements := [1, 2], next_url := none, limit := none }
      = .done [1, 2] { elements := [1, 2], next_url := none, limit := none }
          [.ok { data := [7], next := some "u" }] :=
  (c8_second_iteration_no_fetch id
    [.ok { data := [2], next := none }] [.ok { data := [7], next := some "u" }]
    { elements := [1], next_url := some "/a", limit := none }
    { elements := [1, 2], next_url := none, limit := none }
    [1, 2] [] (by decide)).1

/-! ### C9 -/

/-- The slice-loop guard is true for indices below a nonzero stop bound. -/
theorem endGuard_true_of {stopv i : Int} (h : i < stopv) (h0 : stopv ≠ 0) :
    endGuard (some stopv) i = true := by
  simp only [endGuard]
  rw [if_neg h0]
  exact decide_eq_true h

/-- At an index past the stored elements of a collection whose `has_next` is
false, the slice-loop access condition fails. -/
theorem slice_cond_false {α : Type} (p : PaginatedList α)
    (hnx : p.has_next = false) (i : Int) (hk : (p.elements.length : Int) ≤ i) :
    ¬((p.elements.length : Int) > i ∨ p.has_next = true) := by
  rintro (h1 | h1)
  · omega
  · rw [hnx] at h1
    exact Bool.noConfusion h1

/-- Exit step of the `_fetch_to` loop: with the loop condition false the state
and the script are returned untouched. -/
theorem fetch_to_exit {α ρ ε : Type} (f : ρ → α) (i : Int)
    (script : List (Except ε (PageData ρ))) (p : PaginatedList α)
    (h : ¬((p.elements.length : Int) ≤ i ∧ p.has_next = true)) :
    PaginatedList.fetch_to f i script p = .ok p script := by
  unfold PaginatedList.fetch_to
  rw [if_neg h]

/-- Fetch step of the `_fetch_to` loop: with the loop condition true the next
successful response is consumed and processed by `_handle_next`. -/
theorem fetch_to_cons_ok {α ρ ε : Type} (f : ρ → α) (i : Int) (d : PageData ρ)
    (rest : List (Except ε (PageData ρ))) (p : PaginatedList α)
    (h : (p.elements.length : Int) ≤ i ∧ p.has_next = true) :
    PaginatedList.fetch_to f i (.ok d :: rest) p
      = PaginatedList.fetch_to f i rest (p.handle_next f d).2 := by
  conv_lhs => unfold PaginatedList.fetch_to
  rw [if_pos h]

/-- With the loop condition true and an exhausted script, the `_fetch_to` model
reports a short script. -/
theorem fetch_to_nil_stuck {α ρ ε : Type} (f : ρ → α) (i : Int)
    (p : PaginatedList α)
    (h : (p.elements.length : Int) ≤ i ∧ p.has_next = true) :
    PaginatedList.fetch_to f i ([] : List (Except ε (PageData ρ))) p
      = .stuck p := by
  unfold PaginatedList.fetch_to
  rw [if_pos h]

/-- With the loop condition true and a failing response, the `_fetch_to` loop
surfaces the error with the pre-fetch state. -/
theorem fetch_to_cons_error {α ρ ε : Type} (f : ρ → α) (i : Int) (e : ε)
    (rest : List (Except ε (PageData ρ))) (p : PaginatedList α)
    (h : (p.elements.length : Int) ≤ i ∧ p.has_next = true) :
    PaginatedList.fetch_to f i (.error e :: rest) p = .err e p rest := by
  unfold PaginatedList.fetch_to
  rw [if_pos h]

/-- A completed `_fetch_to` run only ever appends: the resulting elements
extend the starting ones. -/
theorem fetch_to_elements_prefix {α ρ ε : Type} (f : ρ → α) (i : Int) :
    ∀ (s : List (Except ε (PageData ρ))) (q q2 : PaginatedList α)
      (s2 : List (Except ε (PageData ρ))),
      PaginatedList.fetch_to f i s q = .ok q2 s2 →
      ∃ t, q2.elements = q.elements ++ t := by
  intro s
  induction s with
  | nil =>
    intro q q2 s2 h
    by_cases hq : (q.elements.length : Int) ≤ i ∧ q.has_next = true
    · rw [fetch_to_nil_stuck f i q hq] at h
      exact absurd h (by simp)
    · rw [fetch_to_exit f i [] q hq] at h
      injection h with h1 h2
      exact ⟨[], by rw [← h1]; simp⟩
  | cons r s3 ih =>
    intro q q2 s2 h
    by_cases hq : (q.elements.length : Int) ≤ i ∧ q.has_next = true
    · cases r with
      | error e =>
        rw [fetch_to_cons_error f i e s3 q hq] at h
        exact absurd h (by simp)
      | ok d =>
        rw [fetch_to_cons_ok f i d s3 q hq] at h
        obtain ⟨t, ht⟩ := ih (q.handle_next f d).2 q2 s2 h
        refine ⟨(q.handle_next f d).1 ++ t, ?_⟩
        rw [ht, handle_next_elements, List.append_assoc]
    · rw [fetch_to_exit f i _ q hq] at h
      injection h with h1 h2
      exact ⟨[], by rw [← h1]; simp⟩

/-- A completed `_fetch_to` run stops only when its loop condition is false:
either the index is materialized or `has_next` is false. -/
theorem fetch_to_stop {α ρ ε : Type} (f : ρ → α) (i : Int) :
    ∀ (s : List (Except ε (PageData ρ))) (q q2 : PaginatedList α)
      (s2 : List (Except ε (PageData ρ))),
      PaginatedList.fetch_to f i s q = .ok q2 s2 →
      ¬((q2.elements.length : Int) ≤ i ∧ q2.has_next = true) := by
  intro s
  induction s with
  | nil =>
    intro q q2 s2 h hc
    by_cases hq : (q.elements.length : Int) ≤ i ∧ q.has_next = true
    · rw [fetch_to_nil_stuck f i q hq] at h
      exact absurd h (by simp)
    · rw [fetch_to_exit f i [] q hq] at h
      injection h with h1 h2
      rw [← h1] at hc
      exact hq hc
  | cons r s3 ih =>
    intro q q2 s2 h hc
    by_cases hq : (q.elements.length : Int) ≤ i ∧ q.has_next = true
    · cases r with
      | error e =>
        rw [fetch_to_cons_error f i e s3 q hq] at h
        exact absurd h (by simp)
      | ok d =>
        rw [fetch_to_cons_ok f i d s3 q hq] at h
        exact ih _ _ _ h hc
    · rw [fetch_to_exit f i _ q hq] at h
      injection h with h1 h2
      rw [← h1] at hc
      exact hq hc

/-- Successive on-demand fetches compose: a `_fetch_to` run for a far index
factors through the run for any nearer index, the second run picking up the
first one's state and remaining script. -/
theorem fetch_to_mono {α ρ ε : Type} (f : ρ → α) (i j : Int) (hij : i ≤ j) :
    ∀ (s : List (Except ε (PageData ρ))) (q qf : PaginatedList α)
      (rest : List (Except ε (PageData ρ))),
      PaginatedList.fetch_to f j s q = .ok qf rest →
      ∃ q2 s2, PaginatedList.fetch_to f i s q = .ok q2 s2
        ∧ PaginatedList.fetch_to f j s2 q2 = .ok qf rest := by
  intro s
  induction s with
  | nil =>
    intro q qf rest h
    by_cases hc : (q.elements.length : Int) ≤ i ∧ q.has_next = true
    · rw [fetch_to_nil_stuck f j q ⟨by omega, hc.2⟩] at h
      exact absurd h (by simp)
    · exact ⟨q, [], fetch_to_exit f i [] q hc, h⟩
  | cons r s3 ih =>
    intro q qf rest h
    by_cases hc : (q.elements.length : Int) ≤ i ∧ q.has_next = true
    · cases r with
      | error e =>
        rw [fetch_to_cons_error f j e s3 q ⟨by omega, hc.2⟩] at h
        exact absurd h (by simp)
      | ok d =>
        rw [fetch_to_cons_ok f j d s3 q ⟨by omega, hc.2⟩] at h
        obtain ⟨q2, s2, h1, h2⟩ := ih (q.handle_next f d).2 qf rest h
        exact ⟨q2, s2, by rw [fetch_to_cons_ok f i d s3 q hc]; exact h1, h2⟩
    · exact ⟨q, r :: s3, fetch_to_exit f i _ q hc, h⟩

/-- `__getitem__` through a completed fetch run: once `_fetch_to` materializes
the index, the stored element at that position is returned. -/
theorem get_via_fetch {α ρ ε : Type} (f : ρ → α) (k : Nat)
    (s : List (Except ε (PageData ρ))) (q q2 : PaginatedList α)
    (s2 : List (Except ε (PageData ρ)))
    (hft : PaginatedList.fetch_to f (k : Int) s q = .ok q2 s2)
    (hlt : k < q2.elements.length) :
    PaginatedList.get f (k : Int) s q
      = .ok (q2.elements.get ⟨k, hlt⟩) q2 s2 := by
  have hidx : pyIndex q2.elements (k : Int) = some (q2.elements.get ⟨k, hlt⟩) := by
    unfold pyIndex
    rw [if_pos (by omega)]
    simp [List.get?_eq_get hlt]
  unfold PaginatedList.get
  rw [hft]
  dsimp only
  rw [hidx]

/-- Slice-loop exit step: guard true but the index is neither materialized nor
obtainable — the slice returns cleanly. -/
theorem sliceLoop_exit {α ρ ε : Type} (f : ρ → α) (stopv step : Int) (fuel : Nat)
    (index : Int) (script : List (Except ε (PageData ρ))) (p : PaginatedList α)
    (hg : endGuard (some stopv) index = true)
    (h1 : ¬((p.elements.length : Int) > index ∨ p.has_next = true)) :
    sliceLoop f (some stopv) step fuel index script p = .done [] p script := by
  unfold sliceLoop
  rw [if_pos hg, if_neg h1]

/-- Slice-loop yield step, completing case: a successful access followed by a
completing recursive run prepends the accessed element. -/
theorem sliceLoop_yield_done {α ρ ε : Type} (f : ρ → α) (stopv step : Int)
    (fuel : Nat) (index : Int) (script : List (Except ε (PageData ρ)))
    (p p2 st : PaginatedList α) (a : α) (ys : List α)
    (rest r : List (Except ε (PageData ρ)))
    (hg : endGuard (some stopv) index = true)
    (hcond : (p.elements.length : Int) > index ∨ p.has_next = true)
    (hget : PaginatedList.get f index script p = .ok a p2 rest)
    (hrec : sliceLoop f (some stopv) step fuel (index + step) rest p2
      = .done ys st r) :
    sliceLoop f (some stopv) step (fuel + 1) index script p
      = .done (a :: ys) st r := by
  unfold sliceLoop
  rw [if_pos hg, if_pos hcond, hget]
  dsimp only
  rw [hrec]

/-- Exit case of the on-demand slice walk: at an index at or past the total
count `N`, the walk stops cleanly with all of `qf`'s elements delivered. -/
theorem sliceLoop_on_demand_exit {α ρ ε : Type} (f : ρ → α) (stopv : Int)
    (N : Nat) (qf : PaginatedList α) (rest : List (Except ε (PageData ρ)))
    (hN : qf.elements.length = N) (hqf : qf.has_next = false)
    (hstop : (N : Int) < stopv) (fuel k : Nat)
    (s : List (Except ε (PageData ρ))) (q : PaginatedList α)
    (hk : k ≤ q.elements.length)
    (hft : PaginatedList.fetch_to f ((N : Int) - 1) s q = .ok qf rest)
    (hkN : N ≤ k) :
    sliceLoop f (some stopv) 1 fuel (k : Int) s q
      = .done (qf.elements.drop k) qf rest := by
  have h0 : stopv ≠ 0 := by omega
  obtain ⟨t, ht⟩ := fetch_to_elements_prefix f ((N : Int) - 1) s q qf rest hft
  have hlenq : q.elements.length ≤ N := by
    have hl := congrArg List.length ht
    simp [List.length_append] at hl
    omega
  have hkN2 : k = N := by omega
  subst hkN2
  have hlq : q.elements.length = k := by omega
  have hexit : PaginatedList.fetch_to f ((k : Int) - 1) s q = .ok q s :=
    fetch_to_exit f _ s q (by rintro ⟨hc, -⟩; omega)
  rw [hexit] at hft
  injection hft with hq hs
  rw [← hq, ← hs]
  rw [sliceLoop_exit f stopv 1 fuel _ s q
    (endGuard_true_of (by omega) h0)
    (slice_cond_false q (by rw [hq]; exact hqf) _ (by omega))]
  rw [← hlq, List.drop_length]

/-- The on-demand slice walk: starting at index `k` with the first `k`
elements materialized, if fetching on demand up to index `N - 1` ends with all
`N` elements materialized and `has_next` false, then the step-1 slice bounded
by `stopv > N` delivers exactly the remaining elements and stops cleanly,
consuming exactly the responses that the fetches need. -/
theorem sliceLoop_on_demand {α ρ ε : Type} (f : ρ → α) (stopv : Int) (N : Nat)
    (qf : PaginatedList α) (rest : List (Except ε (PageData ρ)))
    (hN : qf.elements.length = N) (hqf : qf.has_next = false)
    (hstop : (N : Int) < stopv) :
    ∀ (fuel k : Nat) (s : List (Except ε (PageData ρ))) (q : PaginatedList α),
      k ≤ q.elements.length →
      PaginatedList.fetch_to f ((N : Int) - 1) s q = .ok qf rest →
      N - k ≤ fuel →
      sliceLoop f (some stopv) 1 fuel (k : Int) s q
        = .done (qf.elements.drop k) qf rest := by
  have h0 : stopv ≠ 0 := by omega
  intro fuel
  induction fuel with
  | zero =>
    intro k s q hk hft hf
    exact sliceLoop_on_demand_exit f stopv N qf rest hN hqf hstop 0 k s q hk hft
      (by omega)
  | succ fuel2 ih =>
    intro k s q hk hft hf
    rcases Nat.lt_or_ge k N with hkN | hkN
    · obtain ⟨q2, s2, hfk, hfrest⟩ :=
        fetch_to_mono f (k : Int) ((N : Int) - 1) (by omega) s q qf rest hft
      have hstop2 := fetch_to_stop f (k : Int) s q q2 s2 hfk
      obtain ⟨t2, ht2⟩ :=
        fetch_to_elements_prefix f ((N : Int) - 1) s2 q2 qf rest hfrest
      have hlen2 : q2.elements.length ≤ N := by
        have hl := congrArg List.length ht2
        simp [List.length_append] at hl
        omega
      have hklt : k < q2.elements.length := by
        by_contra hle
        push_neg at hle
        have hnx2 : q2.has_next = false := by
          cases hb : q2.has_next with
          | false => rfl
          | true => exact absurd ⟨by omega, hb⟩ hstop2
        have hx : PaginatedList.fetch_to f ((N : Int) - 1) s2 q2 = .ok q2 s2 :=
          fetch_to_exit f _ s2 q2
            (by rintro ⟨-, hb⟩; rw [hnx2] at hb; exact Bool.noConfusion hb)
        rw [hx] at hfrest
        injection hfrest with hq2 hs2
        rw [hq2] at hle
        omega
      have hkqf : k < qf.elements.length := by omega
      have helem : q2.elements.get ⟨k, hklt⟩ = qf.elements.get ⟨k, hkqf⟩ := by
        have hsome : qf.elements.get? k = q2.elements.get? k := by
          rw [List.get?_eq_getElem?, List.get?_eq_getElem?, ht2,
            List.getElem?_append_left hklt]
        rw [List.get?_eq_get hklt, List.get?_eq_get hkqf] at hsome
        exact (Option.some.inj hsome).symm
      have hcond : (q.elements.length : Int) > (k : Int) ∨ q.has_next = true := by
        by_cases hql : (k : Int) < (q.elements.length : Int)
        · exact Or.inl hql
        · right
          by_contra hnx
          have hnx2 : q.has_next = false := by
            cases hb : q.has_next with
            | false => rfl
            | true => exact absurd hb hnx
          have hx : PaginatedList.fetch_to f (k : Int) s q = .ok q s :=
            fetch_to_exit f _ s q
              (by rintro ⟨-, hb⟩; rw [hnx2] at hb; exact Bool.noConfusion hb)
          rw [hx] at hfk
          injection hfk with hq2 hs2
          rw [← hq2] at hklt
          omega
      have hget : PaginatedList.get f (k : Int) s q
          = .ok (q2.elements.get ⟨k, hklt⟩) q2 s2 :=
        get_via_fetch f k s q q2 s2 hfk hklt
      have hrec := ih (k + 1) s2 q2 (by omega) hfrest (by omega)
      have hcast : ((k + 1 : Nat) : Int) = (k : Int) + 1 := by push_cast; ring
      rw [hcast] at hrec
      rw [sliceLoop_yield_done f stopv 1 fuel2 (k : Int) s q q2 qf
        (q2.elements.get ⟨k, hklt⟩) (qf.elements.drop (k + 1)) s2 rest
        (endGuard_true_of (by omega) h0) hcond hget hrec]
      rw [helem, List.drop_eq_getElem_cons hkqf]
      simp
    · exact sliceLoop_on_demand_exit f stopv N qf rest hN hqf hstop (fuel2 + 1) k
        s q hk hft hkN

/-- C9: the claim says `slice(0, 100)` over a collection with only `N < 100`
total elements yields exactly `N` elements and then terminates. On a collection
holding 1 element whose cursor advertises a next page that turns out empty
(with a null next link), the slice yields the 1 element and then raises
`IndexError` from the probe access instead of terminating. -/
theorem c9_slice_counterexample :
    PaginatedList.sliceIter id { start := some 0, stop := some 100, step := some 1 } 5
      ([.ok { data := [], next := none }] : List (Except Unit (PageData Nat)))
      { elements := [10], next_url := some "/p2", limit := none }
      = .idxErr [10] { elements := [10], next_url := none, limit := none } [] := by
  decide

/-- C9 amended: `slice(0, stop)` over a logical sequence of `N < stop` total
elements yields exactly those `N` elements and terminates cleanly, fetching
pages on demand and consuming exactly the responses those fetches need —
provided `has_next` is false by the time the first unreachable index `N` is
probed, i.e. the on-demand fetching for indices below `N` (the `_fetch_to (N-1)`
run) ends with all `N` elements materialized and `has_next` false (the last
consumed page carried a null next link, or the limit was reached). When instead
`has_next` is still true at that probe and the advertised pages fail to
materialize index `N`, the code raises `IndexError` instead of terminating
(the counterexample). -/
theorem c9_slice_early_stop {α ρ ε : Type} (f : ρ → α) (stopv : Int)
    (fuel N : Nat) (script rest : List (Except ε (PageData ρ)))
    (p q : PaginatedList α)
    (h1 : PaginatedList.fetch_to f ((N : Int) - 1) script p = .ok q rest)
    (h2 : q.elements.length = N) (h3 : q.has_next = false)
    (h4 : (N : Int) < stopv) (h5 : N ≤ fuel) :
    PaginatedList.sliceIter f { start := some 0, stop := some stopv, step := some 1 }
      fuel script p = .done q.elements q rest := by
  have h := sliceLoop_on_demand f stopv N q rest h2 h3 h4 fuel 0 script p
    (Nat.zero_le _) h1 (by omega)
  simpa [PaginatedList.sliceIter, SliceArgs.startVal, SliceArgs.stepVal] using h

/-- C9 amended, instantiated with a mid-slice fetch: one element held with a
live cursor, the next page holding two more with a null next link —
`slice(0, 100)` fetches that page on demand, yields all three elements and
stops cleanly, consuming exactly the one response. -/
theorem c9_slice_early_stop_witness :
    PaginatedList.sliceIter id { start := some 0, stop := some 100, step := some 1 }
      100 ([.ok { data := [2, 3], next := none }] : List (Except Unit (PageData Nat)))
      { elements := [1], next_url := some "/a", limit := none }
      = .done [1, 2, 3] { elements := [1, 2, 3], next_url := none, limit := none }
          [] :=
  c9_slice_early_stop id 100 100 3 [.ok { data := [2, 3], next := none }] []
    { elements := [1], next_url := some "/a", limit := none }
    { elements := [1, 2, 3], next_url := none, limit := none }
    (by decide) (by decide) (by decide) (by decide) (by decide)

/-! ### C10 -/

/-- C10 (confirmed): a collection with `limit = 0` behaves exactly like an
unbounded one, not an empty one: `has_next` coincides with the limit-free
collection's, a page fetch returns and appends exactly the same elements and
cursor as the limit-free collection's fetch, and the fetched page is never
truncated (every limit check tests Python truthiness, and `0` is falsy). -/
theorem c10_limit_zero_unbounded {α ρ : Type} (f : ρ → α) (p : PaginatedList α)
    (d : PageData ρ) (h : p.limit = some 0) :
    (p.has_next = PaginatedList.has_next { p with limit := none })
    ∧ (p.handle_next f d).1
        = (PaginatedList.handle_next f { p with limit := none } d).1
    ∧ (p.handle_next f d).2.elements
        = (PaginatedList.handle_next f { p with limit := none } d).2.elements
    ∧ (p.handle_next f d).2.next_url
        = (PaginatedList.handle_next f { p with limit := none } d).2.next_url
    ∧ (p.handle_next f d).1 = d.data.map f := by
  refine ⟨?_, ?_, ?_, ?_, ?_⟩ <;>
    simp [PaginatedList.has_next, PaginatedList.handle_next, h]

/-- C10 instantiated: with one element held, `limit = 0` and a live cursor,
`has_next` is true and a three-element page is appended whole. -/
theorem c10_limit_zero_unbounded_witness :
    (PaginatedList.has_next { elements := [1], next_url := some "/x", limit := some 0 })
      = true
    ∧ (PaginatedList.handle_next id
        { elements := [1], next_url := some "/x", limit := some 0 }
        { data := [2, 3, 4], next := none }).1 = [2, 3, 4] := by
  have h := c10_limit_zero_unbounded id
    { elements := ([1] : List Nat), next_url := some "/x", limit := some 0 }
    { data := [2, 3, 4], next := none } rfl
  exact ⟨by rw [h.1]; decide, by rw [h.2.2.2.2]; decide⟩
